import Mathlib

/-!
Verification of the streaming chat core of the Locali frontend.

The development embeds, as Lean functions, the parts of the source that
drive one send-message streaming exchange:

* the frame decoder inside `ApiClient.streamRequest`
  (`frontend/src/lib/api.ts`), which turns raw response chunks into
  protocol tokens;
* the transport classification at the top of `streamRequest` (HTTP
  status check, JSON error body, missing body);
* the global chat store and its actions (`frontend/src/store/index.ts`):
  `addMessage`, `appendToResponse`, `setStreaming`, `setError`;
* the send-message controller `useSendMessage`
  (`frontend/src/lib/queries.ts`);
* the submit guard `handleSubmit`
  (`frontend/src/components/chat/ChatInput.tsx`).

Text is modeled as `List Char`.  Network chunks are modeled as the text
obtained from each raw byte chunk by `TextDecoder.decode`; for ASCII
chunks (all inputs used below) that decoding is the identity, so the
model is exact there.  JavaScript string primitives (`split('\n')`,
`startsWith`, `slice(6)`, `trim`) are re-implemented structurally on
`List Char` so that every definition evaluates inside the kernel.
-/

namespace Locali

/-- Text: a JavaScript string, modeled as its sequence of characters. -/
abbrev Text := List Char

/-- Characters treated as whitespace by `String.prototype.trim`
(restricted to the ASCII whitespace actually reachable here). -/
def isWsChar (c : Char) : Bool :=
  c = ' ' || c = '\t' || c = '\n' || c = '\r'

/-- JavaScript `s.trim()`: drop leading and trailing whitespace. -/
def trimText (s : Text) : Text :=
  ((s.dropWhile isWsChar).reverse.dropWhile isWsChar).reverse

/-- JavaScript `s.split('\n')` : the list of segments between newline
characters, keeping empty segments (so `"a\n"` splits to `["a", ""]`
and `""` splits to `[""]`), exactly as in JS. -/
def splitNl : Text → List Text
  | [] => [[]]
  | c :: cs =>
    if c = '\n' then [] :: splitNl cs
    else
      match splitNl cs with
      | [] => [[c]]
      | l :: ls => (c :: l) :: ls

/-- The literal `"data: "` checked by `line.startsWith('data: ')`. -/
def dataMark : Text := ['d', 'a', 't', 'a', ':', ' ']

/-- The reserved sentinel payload `"[DONE]"`. -/
def doneMark : Text := ['[', 'D', 'O', 'N', 'E', ']']

/-- The body of the `for (const line of lines)` loop in
`streamRequest` (`frontend/src/lib/api.ts`, lines 125-136): keep lines
starting with `"data: "`, strip the 6-character marker, `trim`, close
the stream on the sentinel `"[DONE]"` (discarding the rest of the line
list), drop empty payloads, and enqueue every other payload in order.
Returns the enqueued tokens plus whether the sentinel closed the
stream. -/
def processLines : List Text → List Text × Bool
  | [] => ([], false)
  | line :: rest =>
    if dataMark.isPrefixOf line then
      let payload := trimText (line.drop 6)
      if payload = doneMark then ([], true)
      else
        let r := processLines rest
        if payload = [] then r else (payload :: r.1, r.2)
    else processLines rest

/-- One iteration of `pump` on a decoded chunk: `chunk.split('\n')`
followed by the line loop.  Note the source keeps no buffer between
chunks: every segment of the split, including a trailing partial line,
is processed immediately. -/
def processChunk (chunk : Text) : List Text × Bool :=
  processLines (splitNl chunk)

/-- The whole `pump` recursion of `streamRequest` over the successive
decoded chunks of the response body: tokens are concatenated in order;
decoding stops at the first chunk whose processing saw the sentinel
(`controller.close()` followed by `return`), and otherwise ends when
the byte source ends (`done` branch, which also closes the stream).
The boolean records whether the sentinel was seen. -/
def decodeStream : List Text → List Text × Bool
  | [] => ([], false)
  | c :: cs =>
    let r := processChunk c
    if r.2 then (r.1, true)
    else
      let r2 := decodeStream cs
      (r.1 ++ r2.1, r2.2)

/-! The decoder the spec describes, for comparison.  Spec §4.1 demands
a buffer carrying the trailing partial line from one chunk to the
next; the code above has no such buffer.  The definitions below follow
the spec's words (same per-line rule, plus the buffer) so the intended
algorithm can be compared with the implemented one. -/

/-- Last segment of a split (the trailing partial line); total, with
the empty text for the (unreachable) empty list. -/
def lastSeg : List Text → Text
  | [] => []
  | [l] => l
  | _ :: l :: ls => lastSeg (l :: ls)

/-- Glue a text onto the first segment of a split (used to state how
splitting distributes over appending). -/
def glueHead (b : Text) : List Text → List Text
  | [] => []
  | h :: t => (b ++ h) :: t

/-- State of the spec's frame decoder: the carried-over partial line
and whether the sentinel has been seen. -/
structure DecoderState where
  buffer : Text
  done : Bool
deriving DecidableEq

/-- One chunk step of the spec's decoder: append the chunk to the
buffer, split off the complete (newline-terminated) lines — all
segments but the final one — process them with the per-line rule, keep
the final segment as the new buffer, and once the sentinel is seen
discard all buffered content and ignore further input. -/
def specStep (st : DecoderState) (chunk : Text) : List Text × DecoderState :=
  if st.done then ([], st)
  else
    let parts := splitNl (st.buffer ++ chunk)
    let r := processLines parts.dropLast
    if r.2 then (r.1, ⟨[], true⟩)
    else (r.1, ⟨lastSeg parts, false⟩)

/-- The spec's decoder over a sequence of chunks, threading the
state. -/
def specRun (st : DecoderState) : List Text → List Text × DecoderState
  | [] => ([], st)
  | c :: cs =>
    let r1 := specStep st c
    let r2 := specRun r1.2 cs
    (r1.1 ++ r2.1, r2.2)

/-- The token sequence the spec's decoder emits for a chunked
response. -/
def specDecode (chunks : List Text) : List Text :=
  (specRun ⟨[], false⟩ chunks).1

/-!  Transport classification: the top of `streamRequest`
(`frontend/src/lib/api.ts`, lines 96-108).  The source throws the single
class `ApiError` at two distinct sites; the spec names the first site's
error (non-success status) `TransportError` and the second's (success
but no body) `ProtocolError`, and the two constructors below record
that distinction.  `jsonDetail` abstracts
`await response.json().catch(() => ({}))` followed by `.detail`:
`none` covers both an unparseable body and a parsed body without a
`detail` field (in each case `errorData.detail` is falsy by absence),
while `some d` is a parsed `detail` string `d` (the `||` fallback still
fires when `d` is the empty string, since `''` is falsy in JS). -/

/-- An HTTP response as `streamRequest` observes it. -/
structure HttpResponse where
  ok : Bool
  status : Nat
  statusText : Text
  jsonDetail : Option Text
  hasBody : Bool
  bodyChunks : List Text

/-- Errors thrown by `streamRequest` before any byte is decoded:
`transport` for the non-success-status throw, `protocol` for the
missing-body throw.  Both carry the `ApiError` message. -/
inductive StreamError where
  | transport (msg : Text)
  | protocol (msg : Text)
deriving DecidableEq

/-- The generic fallback message
`` `HTTP ${response.status}: ${response.statusText}` ``. -/
def fallbackMsg (r : HttpResponse) : Text :=
  "HTTP ".data ++ (Nat.repr r.status).data ++ ": ".data ++ r.statusText

/-- The message of the `ApiError` thrown on a non-success status:
`errorData.detail || fallback`. -/
def transportMsg (r : HttpResponse) : Text :=
  match r.jsonDetail with
  | some d => if d = [] then fallbackMsg r else d
  | none => fallbackMsg r

/-- The `streamRequest` pipeline: classify the response, then (only on
success with a body) run the frame decoder over the body chunks.  On
error, no bytes are handed downstream: the result carries no tokens. -/
def streamRequest (r : HttpResponse) : Except StreamError (List Text) :=
  if r.ok then
    if r.hasBody then .ok (decodeStream r.bodyChunks).1
    else .error (.protocol "No response body for streaming request".data)
  else .error (.transport (transportMsg r))

/-! Chat store (`frontend/src/store/index.ts`).  The source keeps one
global reactive `chatStore`; there is exactly one `messages` list, one
`isStreaming` flag and one `currentResponse` accumulator, not one per
conversation. -/

/-- Message roles (`'user' | 'assistant' | 'system'`). -/
inductive Role where
  | user
  | assistant
  | system
deriving DecidableEq

/-- A chat message (`Message` in `frontend/src/types/index.ts`); the
unused optional `tokens`/`metadata` fields are omitted and the UUID and
ISO timestamp are abstract data. -/
structure Message where
  id : Nat
  role : Role
  content : Text
  timestamp : Nat
deriving DecidableEq

/-- The global `chatStore` fields touched by a streaming exchange. -/
structure ChatStore where
  messages : List Message
  isStreaming : Bool
  currentResponse : Text
  error : Option Text
deriving DecidableEq

/-- The store in its initial state. -/
def ChatStore.init : ChatStore :=
  { messages := [], isStreaming := false, currentResponse := [], error := none }

/-- Action `chatActions.addMessage`: push onto `messages`. -/
def addMessage (s : ChatStore) (m : Message) : ChatStore :=
  { s with messages := s.messages ++ [m] }

/-- Action `chatActions.appendToResponse`: extend `currentResponse`
by the token, then overwrite the LAST message's content with the whole
accumulator, provided the last message exists and is an assistant
message. -/
def appendToResponse (s : ChatStore) (tok : Text) : ChatStore :=
  let cur := s.currentResponse ++ tok
  match s.messages.getLast? with
  | some m =>
    if m.role = .assistant then
      { s with currentResponse := cur,
               messages := s.messages.dropLast ++ [{ m with content := cur }] }
    else { s with currentResponse := cur }
  | none => { s with currentResponse := cur }

/-- Action `chatActions.setStreaming`: set the flag, and when turning
it off also reset `currentResponse` to the empty string. -/
def setStreaming (s : ChatStore) (b : Bool) : ChatStore :=
  if b then { s with isStreaming := true }
  else { s with isStreaming := false, currentResponse := [] }

/-- Action `chatActions.setError`. -/
def setError (s : ChatStore) (e : Option Text) : ChatStore :=
  { s with error := e }

/-! Send-message controller (`useSendMessage` in
`frontend/src/lib/queries.ts`, lines 144-199). -/

/-- Apply a list of decoded tokens in arrival order, one
`appendToResponse` per token (the `while` read loop). -/
def applyTokens (s : ChatStore) : List Text → ChatStore
  | [] => s
  | t :: ts => applyTokens (appendToResponse s t) ts

/-- The store state after the synchronous head of `mutationFn`:
`setStreaming(true)`, `setError(undefined)`, append the user message,
append the empty assistant placeholder — all before any network I/O. -/
def placeholdersAdded (s : ChatStore) (uid aid : Nat) (userText : Text)
    (uts ats : Nat) : ChatStore :=
  addMessage
    (addMessage (setError (setStreaming s true) none)
      { id := uid, role := .user, content := userText, timestamp := uts })
    { id := aid, role := .assistant, content := [], timestamp := ats }

/-- Outcome of one run of `mutationFn`: the final store, how many
times `setStreaming(false)` ran, and whether the error was re-thrown
to the caller. -/
structure SendResult where
  store : ChatStore
  offCalls : Nat
  rethrown : Bool
deriving DecidableEq

/-- One run of `mutationFn`, with the stream outcome abstracted:
`tokens` are the values read before the stream either ended normally
(`err = none`: `setStreaming(false)` then cache invalidation) or threw
(`err = some m`, covering `ApiError`/`NetworkError` rejections and an
aborted read: `setStreaming(false)`, `setError(m)`, re-throw). -/
def runSend (s : ChatStore) (uid aid : Nat) (userText : Text)
    (uts ats : Nat) (tokens : List Text) (err : Option Text) : SendResult :=
  let mid := applyTokens (placeholdersAdded s uid aid userText uts ats) tokens
  match err with
  | none => { store := setStreaming mid false, offCalls := 1, rethrown := false }
  | some m =>
    { store := setError (setStreaming mid false) (some m),
      offCalls := 1, rethrown := true }

/-- A full exchange: `mutationFn` calling `api.sendMessage`.  When
`streamRequest` throws, the read loop never starts, so zero tokens are
applied and the catch block records the thrown message; when it
succeeds, every decoded token is read and applied in order. -/
def runExchange (s : ChatStore) (uid aid : Nat) (userText : Text)
    (uts ats : Nat) (r : HttpResponse) : SendResult :=
  match streamRequest r with
  | .ok toks => runSend s uid aid userText uts ats toks none
  | .error (.transport m) => runSend s uid aid userText uts ats [] (some m)
  | .error (.protocol m) => runSend s uid aid userText uts ats [] (some m)

/-! Submit guard (`handleSubmit` in
`frontend/src/components/chat/ChatInput.tsx`, lines 31-57). -/

/-- The reactive state `handleSubmit` closes over. -/
structure SubmitCtx where
  inputValue : Text
  isStreaming : Bool
  currentConversationId : Option Nat
deriving DecidableEq

/-- The externally observable outcome of one `handleSubmit` call:
whether `sendMessage.mutateAsync` was invoked (and with which trimmed
message), how many messages the call appended before I/O, and whether
any error was surfaced (`toast.error` fires only in the catch branch
of an invoked send; the guard branch is a bare `return`). -/
structure SubmitOutcome where
  sendStarted : Option Text
  messagesAppended : Nat
  errorSurfaced : Bool
deriving DecidableEq

/-- The guard `if (!inputValue.trim() || isStreaming ||
!currentConversationId) return` followed, on acceptance, by the
mutation (which appends the user and assistant messages and may fail
with `sendFailed = true`, surfacing a toast). -/
def handleSubmit (c : SubmitCtx) (sendFailed : Bool) : SubmitOutcome :=
  if trimText c.inputValue = [] ∨ c.isStreaming = true
      ∨ c.currentConversationId = none then
    { sendStarted := none, messagesAppended := 0, errorSurfaced := false }
  else
    { sendStarted := some (trimText c.inputValue), messagesAppended := 2,
      errorSurfaced := sendFailed }

/-! Concrete responses used by the spec's worked examples. -/

/-- Example A of the spec: a successful response whose body arrives as
the three chunks `"data: Hel"`, `"lo\ndata: "`,
`" World\ndata: [DONE]\n"`. -/
def exampleA : HttpResponse :=
  { ok := true, status := 200, statusText := "OK".data, jsonDetail := none,
    hasBody := true,
    bodyChunks := ["data: Hel".data, "lo\ndata: ".data,
      " World\ndata: [DONE]\n".data] }

/-- Example B of the spec: status 500 with JSON body
`{"detail": "model not loaded"}`. -/
def exampleB : HttpResponse :=
  { ok := false, status := 500, statusText := "Internal Server Error".data,
    jsonDetail := some "model not loaded".data, hasBody := true,
    bodyChunks := [] }

/-- Example D of the spec: the connection closes after the single
frame `"data: foo\n"`, with no sentinel ever seen. -/
def exampleD : HttpResponse :=
  { ok := true, status := 200, statusText := "OK".data, jsonDetail := none,
    hasBody := true, bodyChunks := ["data: foo\n".data] }

/-! Supporting lemmas about the store and the controller. -/

/-- Appending a token to a store whose last message is an assistant
message with content equal to the accumulator extends both by the
token. -/
lemma appendToResponse_assistant (ms : List Message) (aid ats : Nat)
    (pre : Text) (b : Bool) (e : Option Text) (t : Text) :
    appendToResponse ⟨ms ++ [⟨aid, .assistant, pre, ats⟩], b, pre, e⟩ t
      = ⟨ms ++ [⟨aid, .assistant, pre ++ t, ats⟩], b, pre ++ t, e⟩ := by
  simp [appendToResponse, List.getLast?_concat, List.dropLast_concat]

/-- Applying a token list to such a store appends the flattened tokens
to the last message's content and to the accumulator, in order. -/
lemma applyTokens_assistant (toks : List Text) (ms : List Message)
    (aid ats : Nat) (pre : Text) (b : Bool) (e : Option Text) :
    applyTokens ⟨ms ++ [⟨aid, .assistant, pre, ats⟩], b, pre, e⟩ toks
      = ⟨ms ++ [⟨aid, .assistant, pre ++ toks.flatten, ats⟩], b,
          pre ++ toks.flatten, e⟩ := by
  induction toks generalizing pre with
  | nil => simp [applyTokens]
  | cons t ts ih =>
    simp [applyTokens, appendToResponse_assistant, ih, List.append_assoc]

/-- The store after the synchronous head of `mutationFn`, when the
accumulator starts empty (as it does at the start of every send: the
store initializes it empty and both terminal paths reset it). -/
lemma placeholdersAdded_eq (s : ChatStore) (h : s.currentResponse = [])
    (uid aid : Nat) (ut : Text) (uts ats : Nat) :
    placeholdersAdded s uid aid ut uts ats
      = ⟨(s.messages ++ [⟨uid, .user, ut, uts⟩])
            ++ [⟨aid, .assistant, [], ats⟩], true, [], none⟩ := by
  cases s
  simp_all [placeholdersAdded, addMessage, setError, setStreaming]

/-- The final state of one `mutationFn` run: both terminal paths clear
the streaming flag and reset the accumulator, the appended messages
stay, the assistant placeholder holds the concatenation of all applied
tokens, and the recorded error is exactly the thrown one (if any). -/
lemma runSend_store (s : ChatStore) (h : s.currentResponse = [])
    (uid aid : Nat) (ut : Text) (uts ats : Nat) (toks : List Text)
    (err : Option Text) :
    (runSend s uid aid ut uts ats toks err).store
      = ⟨(s.messages ++ [⟨uid, .user, ut, uts⟩])
            ++ [⟨aid, .assistant, toks.flatten, ats⟩], false, [], err⟩ := by
  have hmid := applyTokens_assistant toks
    (s.messages ++ [⟨uid, .user, ut, uts⟩]) aid ats [] true none
  have hplace := placeholdersAdded_eq s h uid aid ut uts ats
  cases err with
  | none =>
    show setStreaming
        (applyTokens (placeholdersAdded s uid aid ut uts ats) toks) false = _
    rw [hplace, hmid]
    simp [setStreaming]
  | some m =>
    show setError (setStreaming
        (applyTokens (placeholdersAdded s uid aid ut uts ats) toks) false)
        (some m) = _
    rw [hplace, hmid]
    simp [setStreaming, setError]

/-- Both terminal paths run `setStreaming(false)` exactly once, and
only the error path re-throws. -/
lemma runSend_offCalls (s : ChatStore) (uid aid : Nat) (ut : Text)
    (uts ats : Nat) (toks : List Text) (err : Option Text) :
    (runSend s uid aid ut uts ats toks err).offCalls = 1
      ∧ (runSend s uid aid ut uts ats toks err).rethrown = err.isSome := by
  cases err <;> simp [runSend]

/-- Payloads pushed by the line loop are never the sentinel: the
`[DONE]` comparison guards the enqueue. -/
lemma processLines_no_sentinel (lines : List Text) :
    doneMark ∉ (processLines lines).1 := by
  induction lines with
  | nil => simp [processLines]
  | cons line rest ih =>
    by_cases hp : dataMark.isPrefixOf line
    · by_cases hd : trimText (line.drop 6) = doneMark
      · simp [processLines, hp, hd]
      · by_cases he : trimText (line.drop 6) = []
        · simpa [processLines, hp, hd, he] using ih
        · simp only [processLines, hp, if_true, hd, if_false, he,
            List.mem_cons, not_or]
          exact ⟨fun hEq => hd hEq.symm, ih⟩
    · simpa [processLines, hp] using ih

/-- No token produced by the frame decoder is the sentinel. -/
lemma decodeStream_no_sentinel (chunks : List Text) :
    doneMark ∉ (decodeStream chunks).1 := by
  induction chunks with
  | nil => simp [decodeStream]
  | cons c cs ih =>
    by_cases hc : (processChunk c).2
    · simpa [decodeStream, hc] using processLines_no_sentinel (splitNl c)
    · have h1 : doneMark ∉ (processChunk c).1 :=
        processLines_no_sentinel (splitNl c)
      simp only [decodeStream, if_neg hc, List.mem_append, not_or]
      exact ⟨h1, ih⟩

/-- Once the sentinel closed the stream, any further chunks are never
read: the decoder's output is unchanged by appending more input. -/
lemma decodeStream_stops_at_sentinel (pre post : List Text)
    (h : (decodeStream pre).2 = true) :
    decodeStream (pre ++ post) = decodeStream pre := by
  induction pre with
  | nil => simp [decodeStream] at h
  | cons c cs ih =>
    by_cases hc : (processChunk c).2
    · simp [decodeStream, hc]
    · simp only [decodeStream, if_neg hc] at h
      simp only [List.cons_append, decodeStream, if_neg hc, List.append_eq,
        ih h]

/-! Properties of the spec's buffered decoder, culminating in
re-chunking invariance: the algorithm of §4.1 emits the same tokens
for every partition of the same character stream. -/

/-- The JS split never returns an empty list. -/
lemma splitNl_ne_nil (s : Text) : splitNl s ≠ [] := by
  cases s with
  | nil => simp [splitNl]
  | cons c cs =>
    by_cases hc : c = '\n'
    · simp [splitNl, hc]
    · cases h : splitNl cs <;> simp [splitNl, hc, h]

/-- Segments produced by the split contain no newline. -/
lemma splitNl_no_nl (s : Text) : ∀ l ∈ splitNl s, '\n' ∉ l := by
  induction s with
  | nil =>
    intro l hl
    simp [splitNl] at hl
    simp [hl]
  | cons c cs ih =>
    intro l hl
    by_cases hc : c = '\n'
    · simp [splitNl, hc] at hl
      rcases hl with hl | hl
      · simp [hl]
      · exact ih l hl
    · cases h : splitNl cs with
      | nil => exact absurd h (splitNl_ne_nil cs)
      | cons p ps =>
        simp only [splitNl, if_neg hc, h] at hl
        rcases List.mem_cons.mp hl with hl | hl
        · subst hl
          intro hmem
          rcases List.mem_cons.mp hmem with h1 | h1
          · exact hc h1.symm
          · exact ih p (by simp [h]) h1
        · exact ih l (by simp [h, hl])

/-- A text without newline splits to the single segment itself. -/
lemma splitNl_eq_self (s : Text) (h : '\n' ∉ s) : splitNl s = [s] := by
  induction s with
  | nil => rfl
  | cons c cs ih =>
    have hc : ¬c = '\n' := fun he => h (by simp [he])
    have hcs : '\n' ∉ cs := fun hm => h (by simp [hm])
    simp [splitNl, hc, ih hcs]

/-- Splitting a cons that is not a newline glues the character onto
the first segment. -/
lemma splitNl_cons_ne (c : Char) (z : Text) (hc : ¬c = '\n') :
    splitNl (c :: z) = glueHead [c] (splitNl z) := by
  cases h : splitNl z with
  | nil => exact absurd h (splitNl_ne_nil z)
  | cons p ps => simp [splitNl, hc, h, glueHead]

/-- Gluing twice glues the concatenation. -/
lemma glueHead_glueHead (a b : Text) (l : List Text) :
    glueHead a (glueHead b l) = glueHead (a ++ b) l := by
  cases l <;> simp [glueHead]

/-- The last segment of a non-trivial append is the last segment of
the right part. -/
lemma lastSeg_append (A B : List Text) (h : B ≠ []) :
    lastSeg (A ++ B) = lastSeg B := by
  induction A with
  | nil => rfl
  | cons a A' ih =>
    cases hA : A' ++ B with
    | nil => exact absurd (List.append_eq_nil.mp hA).2 h
    | cons q qs => simp [lastSeg, hA, ← ih]

/-- The last segment of a non-empty list is one of its elements. -/
lemma lastSeg_mem : ∀ l : List Text, l ≠ [] → lastSeg l ∈ l
  | [], h => absurd rfl h
  | [a], _ => by simp [lastSeg]
  | a :: b :: t, _ => by
    have h := lastSeg_mem (b :: t) (by simp)
    simp only [lastSeg]
    exact List.mem_cons_of_mem a h

/-- Splitting distributes over appending: the complete lines of the
left part stay, and its trailing partial segment glues onto the first
segment of the right part. -/
lemma splitNl_append (x y : Text) :
    splitNl (x ++ y)
      = (splitNl x).dropLast
          ++ glueHead (lastSeg (splitNl x)) (splitNl y) := by
  induction x with
  | nil =>
    cases hy : splitNl y with
    | nil => exact absurd hy (splitNl_ne_nil y)
    | cons q qs => simp [splitNl, lastSeg, glueHead, hy]
  | cons c cs ih =>
    by_cases hc : c = '\n'
    · subst hc
      cases hcs : splitNl cs with
      | nil => exact absurd hcs (splitNl_ne_nil cs)
      | cons p ps =>
        have hl : splitNl (('\n' :: cs) ++ y) = [] :: splitNl (cs ++ y) := by
          simp [splitNl]
        rw [hl, ih, hcs]
        simp [splitNl, hcs, lastSeg, List.dropLast]
    · have hl : splitNl ((c :: cs) ++ y) = glueHead [c] (splitNl (cs ++ y)) := by
        simpa using splitNl_cons_ne c (cs ++ y) hc
      rw [hl, ih, splitNl_cons_ne c cs hc]
      cases hcs : splitNl cs with
      | nil => exact absurd hcs (splitNl_ne_nil cs)
      | cons p ps =>
        cases ps with
        | nil =>
          cases hy : splitNl y with
          | nil => exact absurd hy (splitNl_ne_nil y)
          | cons q qs =>
            simp [glueHead, lastSeg, List.dropLast, glueHead_glueHead]
        | cons p2 ps' =>
          simp [glueHead, lastSeg, List.dropLast]

/-- Processing an appended line list: if the left part saw the
sentinel the right part is never read; otherwise the outputs
concatenate. -/
lemma processLines_append (l1 l2 : List Text) :
    processLines (l1 ++ l2)
      = if (processLines l1).2 then processLines l1
        else ((processLines l1).1 ++ (processLines l2).1,
              (processLines l2).2) := by
  induction l1 with
  | nil => simp [processLines]
  | cons line rest ih =>
    by_cases hp : dataMark.isPrefixOf line
    · by_cases hd : trimText (line.drop 6) = doneMark
      · simp [processLines, hp, hd]
      · by_cases he : trimText (line.drop 6) = []
        · simpa [processLines, hp, hd, he] using ih
        · by_cases h2 : (processLines rest).2 <;>
            simp [processLines, hp, hd, he, ih, h2]
    · by_cases h2 : (processLines rest).2 <;>
        simp [processLines, hp, ih, h2]

/-- The spec decoder's carried buffer never contains a newline. -/
lemma specStep_buffer_no_nl (st : DecoderState) (c : Text)
    (h : '\n' ∉ st.buffer) : '\n' ∉ (specStep st c).2.buffer := by
  cases st with
  | mk b d =>
    cases d
    · by_cases hr : (processLines (splitNl (b ++ c)).dropLast).2
      · simp [specStep, hr]
      · have hm := lastSeg_mem (splitNl (b ++ c)) (splitNl_ne_nil (b ++ c))
        simpa [specStep, hr] using splitNl_no_nl (b ++ c) _ hm
    · simpa [specStep] using h

/-- Feeding the empty chunk changes nothing (the buffer holds no
newline, so no line completes). -/
lemma specStep_nil (st : DecoderState) (h : '\n' ∉ st.buffer) :
    specStep st [] = ([], st) := by
  cases st with
  | mk b d =>
    cases d
    · simp [specStep, splitNl_eq_self b h, List.dropLast, processLines,
        lastSeg]
    · simp [specStep]

/-- One spec-decoder step on an appended chunk equals two successive
steps: the carried buffer makes chunk boundaries invisible. -/
lemma specStep_append (st : DecoderState) (c1 c2 : Text) :
    specStep st (c1 ++ c2)
      = ((specStep st c1).1 ++ (specStep (specStep st c1).2 c2).1,
          (specStep (specStep st c1).2 c2).2) := by
  cases st with
  | mk b d =>
    cases d
    case true => simp [specStep]
    case false =>
      have hP1 : splitNl (b ++ (c1 ++ c2))
          = (splitNl (b ++ c1)).dropLast
              ++ glueHead (lastSeg (splitNl (b ++ c1))) (splitNl c2) := by
        rw [← List.append_assoc]
        exact splitNl_append (b ++ c1) c2
      have hb1 : '\n' ∉ lastSeg (splitNl (b ++ c1)) :=
        splitNl_no_nl (b ++ c1) _
          (lastSeg_mem _ (splitNl_ne_nil (b ++ c1)))
      have hparts2 : splitNl (lastSeg (splitNl (b ++ c1)) ++ c2)
          = glueHead (lastSeg (splitNl (b ++ c1))) (splitNl c2) := by
        rw [splitNl_append, splitNl_eq_self _ hb1]
        simp [lastSeg, glueHead, List.dropLast]
      cases hy : splitNl c2 with
      | nil => exact absurd hy (splitNl_ne_nil c2)
      | cons q qs =>
        have hgne : glueHead (lastSeg (splitNl (b ++ c1))) (splitNl c2)
            ≠ [] := by
          rw [hy]; simp [glueHead]
        have hdrop : (splitNl (b ++ (c1 ++ c2))).dropLast
            = (splitNl (b ++ c1)).dropLast
                ++ (glueHead (lastSeg (splitNl (b ++ c1)))
                    (splitNl c2)).dropLast := by
          rw [hP1]
          exact List.dropLast_append_of_ne_nil _ hgne
        have hlast : lastSeg (splitNl (b ++ (c1 ++ c2)))
            = lastSeg (glueHead (lastSeg (splitNl (b ++ c1)))
                (splitNl c2)) := by
          rw [hP1]
          exact lastSeg_append _ _ hgne
        by_cases hr1 : (processLines (splitNl (b ++ c1)).dropLast).2
        · simp [specStep, hdrop, processLines_append, hr1]
        · by_cases hr2 : (processLines (glueHead
              (lastSeg (splitNl (b ++ c1))) (splitNl c2)).dropLast).2
          · simp [specStep, hdrop, processLines_append, hr1, hparts2, hr2]
          · simp [specStep, hdrop, processLines_append, hr1, hparts2, hr2,
              hlast]

/-- Running the spec decoder on one chunk is a single step. -/
lemma specRun_single (st : DecoderState) (z : Text) :
    specRun st [z] = specStep st z := by
  simp [specRun]

/-- A chunk list and its concatenation into one chunk decode
identically from any newline-free buffer state. -/
lemma specRun_eq_single (st : DecoderState) (h : '\n' ∉ st.buffer)
    (chunks : List Text) :
    specRun st chunks = specRun st [chunks.flatten] := by
  induction chunks generalizing st with
  | nil => simp [specRun, specRun_single, specStep_nil st h]
  | cons c cs ih =>
    rw [specRun_single, List.flatten_cons, specStep_append]
    have h2 := specStep_buffer_no_nl st c h
    show specRun st (c :: cs) = _
    simp only [specRun, ih _ h2, specRun_single, List.append_nil]

/-- The spec's decoder of §4.1 is re-chunking invariant: any two
partitions of the same character stream yield the same tokens. -/
lemma specDecode_rechunk (chunks1 chunks2 : List Text)
    (h : chunks1.flatten = chunks2.flatten) :
    specDecode chunks1 = specDecode chunks2 := by
  unfold specDecode
  rw [specRun_eq_single _ (by simp) chunks1,
    specRun_eq_single _ (by simp) chunks2, h]

/-! Claim theorems. -/

/-- C1: the claim states that re-chunking the same valid frame stream
at arbitrary boundaries (including inside the `"data: "` marker) yields
an identical token sequence.  The decoder in `streamRequest` keeps no
buffer between chunks, so the logical stream `"data: X\n"` yields the
token `"X"` when delivered whole but no token at all when split after
the six marker characters: the partition changes the emitted sequence,
contradicting the claim — while the spec's own buffering algorithm
(§4.1, `specDecode`) is provably invariant under arbitrary
re-chunking and emits `"X"` for both partitions: the claim describes
the intended algorithm and the code is the slip (a frame-decoder
defect). -/
theorem c1_rechunking_changes_tokens :
    decodeStream ["data: X\n".data] = (["X".data], false)
    ∧ decodeStream ["data: ".data, "X\n".data] = ([], false)
    ∧ (∀ chunks1 chunks2 : List Text, chunks1.flatten = chunks2.flatten →
        specDecode chunks1 = specDecode chunks2)
    ∧ specDecode ["data: ".data, "X\n".data] = ["X".data] := by
  refine ⟨by decide, by decide, specDecode_rechunk, by decide⟩

/-- Witness for C1's invariance conjunct: the one-byte-at-a-time
partition of `"data: X\n"` (the spec's Example C) decodes, under the
spec's algorithm, identically to the whole stream. -/
theorem c1_rechunking_changes_tokens_witness :
    specDecode ["d".data, "a".data, "t".data, "a".data, ":".data,
        " ".data, "X".data, "\n".data]
      = specDecode ["data: X\n".data] :=
  c1_rechunking_changes_tokens.2.2.1 _ _ (by decide)

/-- C3 counterexample: on Example A's three chunks the claim predicts
final assistant content `"Hello World"`; the exchange actually leaves
the assistant message with content `"Hel"`. -/
theorem c3_example_a_counterexample :
    (runExchange ChatStore.init 0 1 "hi".data 0 0
        exampleA).store.messages.getLast?
      = some ⟨1, .assistant, "Hel".data, 0⟩
    ∧ (runExchange ChatStore.init 0 1 "hi".data 0 0
        exampleA).store.messages.getLast?
      ≠ some ⟨1, .assistant, "Hello World".data, 0⟩ := by
  decide

/-- C3 (amended): on Example A's three chunks the decoder emits
exactly the single token `"Hel"` — the trailing fragment `"data: Hel"`
of the first chunk is processed immediately instead of buffered, and
the continuation fragments are dropped — the session still ends in the
completed state, and the final assistant content is `"Hel"`.  For
comparison, the spec's own buffered algorithm on the same chunks
yields `["Hello", "World"]`: even it cannot produce the claimed
`" World"`, whose leading space the spec's own payload-trimming rule
removes. -/
theorem c3_example_a_mismatch :
    streamRequest exampleA = .ok ["Hel".data]
      ∧ (runExchange ChatStore.init 0 1 "hi".data 0 0 exampleA).store
          = ⟨[⟨0, .user, "hi".data, 0⟩, ⟨1, .assistant, "Hel".data, 0⟩],
              false, [], none⟩
      ∧ (runExchange ChatStore.init 0 1 "hi".data 0 0 exampleA).rethrown
          = false
      ∧ specDecode exampleA.bodyChunks = ["Hello".data, "World".data] :=
  ⟨rfl, by decide, by decide, by decide⟩

/-- C2: after the controller has applied the first N tokens of a
session (a session starts with an empty accumulator), the assistant
placeholder is the last message, is present even for N = 0, and its
content is exactly the concatenation of tokens 1..N in arrival order;
moreover the content at N is a prefix of the content at N+1, so it
never regresses, truncates, or reorders. -/
theorem c2_content_equals_concat (s : ChatStore) (h : s.currentResponse = [])
    (uid aid : Nat) (ut : Text) (uts ats : Nat) (toks : List Text) (n : Nat) :
    (applyTokens (placeholdersAdded s uid aid ut uts ats)
        (toks.take n)).messages.getLast?
      = some ⟨aid, .assistant, (toks.take n).flatten, ats⟩
    ∧ (toks.take n).flatten <+: (toks.take (n + 1)).flatten := by
  have hplace := placeholdersAdded_eq s h uid aid ut uts ats
  have hmid := applyTokens_assistant (toks.take n)
    (s.messages ++ [⟨uid, .user, ut, uts⟩]) aid ats [] true none
  constructor
  · rw [hplace, hmid]
    simp [List.getLast?_concat]
  · refine ⟨(toks[n]?.toList).flatten, ?_⟩
    rw [List.take_succ, List.flatten_append]

/-- Witness for C2 at a concrete session: two tokens applied out of
two. -/
theorem c2_content_equals_concat_witness :
    (applyTokens (placeholdersAdded ChatStore.init 0 1 "q".data 0 0)
        ((["He".data, "y".data]).take 2)).messages.getLast?
      = some ⟨1, .assistant, ((["He".data, "y".data]).take 2).flatten, 0⟩
    ∧ ((["He".data, "y".data]).take 2).flatten
        <+: ((["He".data, "y".data]).take 3).flatten :=
  c2_content_equals_concat ChatStore.init rfl 0 1 "q".data 0 0
    ["He".data, "y".data] 2

/-- C4: on a non-success status `streamRequest` throws before any byte
reaches the decoder, with the parsed `detail` field as message when
the JSON error body yields a (non-empty) one and the generic
`"HTTP status: statusText"` message otherwise; on a success status
without a body it throws the protocol error; and whenever it throws,
the exchange applies zero tokens, so the assistant placeholder keeps
its empty content. -/
theorem c4_transport_classification :
    (∀ (r : HttpResponse) (d : Text), r.ok = false → r.jsonDetail = some d →
        d ≠ [] → streamRequest r = .error (.transport d))
    ∧ (∀ r : HttpResponse, r.ok = false → r.jsonDetail = none →
        streamRequest r = .error (.transport (fallbackMsg r)))
    ∧ (∀ r : HttpResponse, r.ok = true → r.hasBody = false →
        streamRequest r
          = .error (.protocol "No response body for streaming request".data))
    ∧ (∀ (s : ChatStore) (uid aid : Nat) (ut : Text) (uts ats : Nat)
        (r : HttpResponse) (e : StreamError), streamRequest r = .error e →
        (runExchange s uid aid ut uts ats r).store.messages.getLast?
          = some ⟨aid, .assistant, [], ats⟩) := by
  refine ⟨?_, ?_, ?_, ?_⟩
  · intro r d hok hd hne
    simp [streamRequest, hok, transportMsg, hd, hne]
  · intro r hok hd
    simp [streamRequest, hok, transportMsg, hd]
  · intro r hok hb
    simp [streamRequest, hok, hb]
  · intro s uid aid ut uts ats r e he
    cases e with
    | transport m =>
      have hrun : runExchange s uid aid ut uts ats r
          = runSend s uid aid ut uts ats [] (some m) := by
        simp [runExchange, he]
      rw [hrun]
      show (setError (setStreaming
          (applyTokens (placeholdersAdded s uid aid ut uts ats) []) false)
          (some m)).messages.getLast? = _
      simp [applyTokens, placeholdersAdded, addMessage, setError,
        setStreaming]
    | protocol m =>
      have hrun : runExchange s uid aid ut uts ats r
          = runSend s uid aid ut uts ats [] (some m) := by
        simp [runExchange, he]
      rw [hrun]
      show (setError (setStreaming
          (applyTokens (placeholdersAdded s uid aid ut uts ats) []) false)
          (some m)).messages.getLast? = _
      simp [applyTokens, placeholdersAdded, addMessage, setError,
        setStreaming]

/-- Witness for C4 at Example B: status 500 with body
`{"detail": "model not loaded"}` gives a transport error with message
`"model not loaded"`, and the placeholder stays empty. -/
theorem c4_transport_classification_witness :
    streamRequest exampleB = .error (.transport "model not loaded".data)
    ∧ (runExchange ChatStore.init 0 1 "hi".data 0 0
        exampleB).store.messages.getLast?
        = some ⟨1, .assistant, [], 0⟩ :=
  ⟨c4_transport_classification.1 exampleB "model not loaded".data rfl rfl
      (by decide),
   c4_transport_classification.2.2.2 ChatStore.init 0 1 "hi".data 0 0
     exampleB (.transport "model not loaded".data)
     (c4_transport_classification.1 exampleB "model not loaded".data rfl rfl
       (by decide))⟩

/-- C5: when the stream throws after some prefix of tokens was applied
(covering transport errors, protocol errors and aborted reads), the
controller clears the streaming flag exactly once, records the error,
re-throws it, and leaves the transcript with the user message and the
assistant placeholder still present, the latter holding exactly the
partial text accumulated before the failure (empty when no token
arrived). -/
theorem c5_error_finalization (s : ChatStore) (h : s.currentResponse = [])
    (uid aid : Nat) (ut : Text) (uts ats : Nat) (toks : List Text)
    (m : Text) :
    (runSend s uid aid ut uts ats toks (some m)).offCalls = 1
    ∧ (runSend s uid aid ut uts ats toks (some m)).rethrown = true
    ∧ (runSend s uid aid ut uts ats toks (some m)).store.error = some m
    ∧ (runSend s uid aid ut uts ats toks (some m)).store.isStreaming = false
    ∧ (runSend s uid aid ut uts ats toks (some m)).store.messages
        = s.messages ++ [⟨uid, .user, ut, uts⟩,
            ⟨aid, .assistant, toks.flatten, ats⟩] := by
  have hoff := runSend_offCalls s uid aid ut uts ats toks (some m)
  have hst := runSend_store s h uid aid ut uts ats toks (some m)
  refine ⟨hoff.1, by simpa using hoff.2, ?_, ?_, ?_⟩ <;> rw [hst] <;> simp

/-- Witness for C5: one token `"pa"` arrives, then the stream throws
`"boom"`. -/
theorem c5_error_finalization_witness :
    (runSend ChatStore.init 0 1 "q".data 0 0 ["pa".data]
        (some "boom".data)).offCalls = 1
    ∧ (runSend ChatStore.init 0 1 "q".data 0 0 ["pa".data]
        (some "boom".data)).rethrown = true
    ∧ (runSend ChatStore.init 0 1 "q".data 0 0 ["pa".data]
        (some "boom".data)).store.error = some "boom".data
    ∧ (runSend ChatStore.init 0 1 "q".data 0 0 ["pa".data]
        (some "boom".data)).store.isStreaming = false
    ∧ (runSend ChatStore.init 0 1 "q".data 0 0 ["pa".data]
        (some "boom".data)).store.messages
        = ChatStore.init.messages ++ [⟨0, .user, "q".data, 0⟩,
            ⟨1, .assistant, (["pa".data]).flatten, 0⟩] :=
  c5_error_finalization ChatStore.init rfl 0 1 "q".data 0 0 ["pa".data]
    "boom".data

/-- C6 counterexample: the claim says a send whose synchronous
preconditions fail surfaces an error to the caller.  With whitespace
input (and no stream in flight, a conversation selected) `handleSubmit`
hits the guard and returns bare: nothing is appended and no error of
any kind is surfaced — no toast, no rejection, since `mutateAsync` is
never invoked. -/
theorem c6_silent_rejection_counterexample :
    handleSubmit ⟨" ".data, false, some 1⟩ false = ⟨none, 0, false⟩ := by
  decide

/-- C6 (amended): for every send whose synchronously checked
preconditions fail — blank input, no target conversation, or a
session already streaming (the flag is global, so in particular one
for the same conversation) — the request is a silent no-op: no message
is appended, no network I/O begins, and no error is surfaced; in
particular a second concurrent send is rejected without appending
duplicate user/assistant messages. -/
theorem c6_precondition_violation_silent_noop (c : SubmitCtx) (f : Bool)
    (h : trimText c.inputValue = [] ∨ c.isStreaming = true
        ∨ c.currentConversationId = none) :
    handleSubmit c f = ⟨none, 0, false⟩ := by
  simp [handleSubmit, h]

/-- Witness for amended C6: a second send attempted while a stream is
in flight is a silent no-op. -/
theorem c6_precondition_violation_silent_noop_witness :
    handleSubmit ⟨"hi".data, true, some 1⟩ false = ⟨none, 0, false⟩ :=
  c6_precondition_violation_silent_noop _ false (Or.inr (Or.inl rfl))

/-- C7: for every chunk sequence the sentinel payload `"[DONE]"` is
never emitted as a token, and once a data line carrying the sentinel
has been seen the decoder's output is closed: appending any further
input (lines after the sentinel in the same chunk are likewise
skipped by the early return) changes neither the tokens nor the done
flag. -/
theorem c7_sentinel_never_emitted :
    (∀ chunks : List Text, doneMark ∉ (decodeStream chunks).1)
    ∧ ∀ pre post : List Text, (decodeStream pre).2 = true →
        decodeStream (pre ++ post) = decodeStream pre :=
  ⟨decodeStream_no_sentinel, decodeStream_stops_at_sentinel⟩

/-- Witness for C7: a stream closed by the sentinel ignores a later
chunk, and a trailing fragment after the sentinel is discarded. -/
theorem c7_sentinel_never_emitted_witness :
    doneMark ∉ (decodeStream ["data: [DONE]\ndata: tail".data]).1
    ∧ decodeStream (["data: [DONE]\n".data] ++ ["data: extra\n".data])
        = decodeStream ["data: [DONE]\n".data] :=
  ⟨c7_sentinel_never_emitted.1 _,
   c7_sentinel_never_emitted.2 _ _ (by decide)⟩

/-- C8: when the byte source ends before any sentinel was seen, the
decoder closes the stream (the `done` branch) instead of hanging, and
the session finishes on the success path: nothing is re-thrown, the
streaming flag is cleared, no error is recorded, and the assistant
message holds the concatenation of all tokens emitted so far. -/
theorem c8_implicit_completion (s : ChatStore) (h : s.currentResponse = [])
    (uid aid : Nat) (ut : Text) (uts ats : Nat) (r : HttpResponse)
    (hok : r.ok = true) (hb : r.hasBody = true)
    (_hns : (decodeStream r.bodyChunks).2 = false) :
    (runExchange s uid aid ut uts ats r).rethrown = false
    ∧ (runExchange s uid aid ut uts ats r).store.isStreaming = false
    ∧ (runExchange s uid aid ut uts ats r).store.error = none
    ∧ (runExchange s uid aid ut uts ats r).store.messages.getLast?
        = some ⟨aid, .assistant, (decodeStream r.bodyChunks).1.flatten,
            ats⟩ := by
  have hreq : streamRequest r = .ok (decodeStream r.bodyChunks).1 := by
    simp [streamRequest, hok, hb]
  have hrun : runExchange s uid aid ut uts ats r
      = runSend s uid aid ut uts ats (decodeStream r.bodyChunks).1 none := by
    simp [runExchange, hreq]
  have hoff := runSend_offCalls s uid aid ut uts ats
    (decodeStream r.bodyChunks).1 none
  have hst := runSend_store s h uid aid ut uts ats
    (decodeStream r.bodyChunks).1 none
  rw [hrun]
  refine ⟨by simpa using hoff.2, ?_, ?_, ?_⟩ <;> rw [hst] <;>
    simp [List.getLast?_concat]

/-- Witness for C8 at Example D: the connection closes after the lone
token `"foo"`; the session completes with content `"foo"`. -/
theorem c8_implicit_completion_witness :
    (runExchange ChatStore.init 0 1 "hi".data 0 0 exampleD).rethrown = false
    ∧ (runExchange ChatStore.init 0 1 "hi".data 0 0
        exampleD).store.isStreaming = false
    ∧ (runExchange ChatStore.init 0 1 "hi".data 0 0 exampleD).store.error
        = none
    ∧ (runExchange ChatStore.init 0 1 "hi".data 0 0
        exampleD).store.messages.getLast?
        = some ⟨1, .assistant,
            (decodeStream exampleD.bodyChunks).1.flatten, 0⟩ :=
  c8_implicit_completion ChatStore.init rfl 0 1 "hi".data 0 0 exampleD rfl
    rfl (by decide)

/-- C9 counterexample: the claim says concurrent sessions for
different conversations share no mutable state, so a token applied by
one session leaves the other's transcript and buffer unchanged.  The
store is one global object: session A (messages 0/1) streams the token
`"x"`; a session B for another conversation (messages 2/3) then starts
and receives its first token `"y"`, and because `currentResponse` is
shared (and `setStreaming(true)` does not reset it) B's placeholder
content becomes `"xy"` — A's token leaked into B's message — instead
of the `"y"` the claim requires. -/
theorem c9_shared_buffer_counterexample :
    (appendToResponse
        (placeholdersAdded
          (appendToResponse
            (placeholdersAdded ChatStore.init 0 1 "qa".data 0 0) "x".data)
          2 3 "qb".data 0 0)
        "y".data).messages.getLast?
      = some ⟨3, .assistant, "xy".data, 0⟩
    ∧ (appendToResponse
        (placeholdersAdded
          (appendToResponse
            (placeholdersAdded ChatStore.init 0 1 "qa".data 0 0) "x".data)
          2 3 "qb".data 0 0)
        "y".data).currentResponse = "xy".data := by
  decide

/-- C9 (amended): sessions are not isolated: the chat store is a
single global object, so applying a token writes the one shared
accumulator (whatever it holds, including another session's text) into
whatever message is currently last in the one shared transcript, and
the streaming indicator is likewise global; independence of sends is
only approximated by the UI guard, which silently rejects every new
send while any session is streaming. -/
theorem c9_single_global_store (s : ChatStore) (tok : Text) (m : Message)
    (c : SubmitCtx) (f : Bool) (hlast : s.messages.getLast? = some m)
    (hrole : m.role = .assistant) :
    (appendToResponse s tok).messages.getLast?
      = some { m with content := s.currentResponse ++ tok }
    ∧ (appendToResponse s tok).currentResponse = s.currentResponse ++ tok
    ∧ (c.isStreaming = true → handleSubmit c f = ⟨none, 0, false⟩) := by
  refine ⟨?_, ?_, fun hstr => by simp [handleSubmit, hstr]⟩
  · simp [appendToResponse, hlast, hrole, List.getLast?_concat]
  · simp [appendToResponse, hlast, hrole]

/-- Witness for amended C9: a store left by another session with
buffer `"x"` and a fresh assistant placeholder last; the next token
`"y"` lands as `"xy"`, and a submit during streaming is silently
rejected. -/
theorem c9_single_global_store_witness :
    (appendToResponse
        ⟨[⟨3, .assistant, [], 0⟩], true, "x".data, none⟩
        "y".data).messages.getLast?
      = some ⟨3, .assistant, "x".data ++ "y".data, 0⟩
    ∧ (appendToResponse
        ⟨[⟨3, .assistant, [], 0⟩], true, "x".data, none⟩
        "y".data).currentResponse = "x".data ++ "y".data
    ∧ (true = true →
        handleSubmit ⟨"hi".data, true, some 1⟩ false = ⟨none, 0, false⟩) := by
  have := c9_single_global_store
    ⟨[⟨3, .assistant, [], 0⟩], true, "x".data, none⟩ "y".data
    ⟨3, .assistant, [], 0⟩ ⟨"hi".data, true, some 1⟩ false rfl rfl
  exact ⟨this.1, this.2.1, fun _ => this.2.2 rfl⟩

/-- C10: `setStreaming(false)` resets the accumulator to the empty
string while touching nothing else (in particular the messages list is
unchanged); both terminal paths of a send call it exactly once, so
immediately after a session terminates the accumulator is empty while
the assistant message retains the last content written to it. -/
theorem c10_streaming_off_resets_buffer :
    (∀ s : ChatStore, setStreaming s false
        = { s with isStreaming := false, currentResponse := [] })
    ∧ (∀ (s : ChatStore), s.currentResponse = [] →
        ∀ (uid aid : Nat) (ut : Text) (uts ats : Nat) (toks : List Text)
          (err : Option Text),
        (runSend s uid aid ut uts ats toks err).offCalls = 1
        ∧ (runSend s uid aid ut uts ats toks err).store.currentResponse = []
        ∧ (runSend s uid aid ut uts ats toks err).store.messages.getLast?
            = some ⟨aid, .assistant, toks.flatten, ats⟩) := by
  refine ⟨fun s => rfl, fun s h uid aid ut uts ats toks err => ?_⟩
  have hoff := runSend_offCalls s uid aid ut uts ats toks err
  have hst := runSend_store s h uid aid ut uts ats toks err
  exact ⟨hoff.1, by rw [hst], by rw [hst]; simp [List.getLast?_concat]⟩

/-- Witness for C10: a completed session with one token `"ok"` ends
with an empty accumulator while the assistant message keeps `"ok"`. -/
theorem c10_streaming_off_resets_buffer_witness :
    (runSend ChatStore.init 0 1 "q".data 0 0 ["ok".data] none).offCalls = 1
    ∧ (runSend ChatStore.init 0 1 "q".data 0 0
        ["ok".data] none).store.currentResponse = []
    ∧ (runSend ChatStore.init 0 1 "q".data 0 0
        ["ok".data] none).store.messages.getLast?
        = some ⟨1, .assistant, (["ok".data]).flatten, 0⟩ :=
  c10_streaming_off_resets_buffer.2 ChatStore.init rfl 0 1 "q".data 0 0
    ["ok".data] none

end Locali
